import Mathlib

/-!
Shallow embedding of `src/main.py` (thearyadev/backup_manager).

The program backs up directories from remote hosts over SSH.  We embed it as
pure functions over an oracle `World` that fixes the outcome of every external
interaction (paramiko connect, remote command exit statuses, sftp fetch
outcomes, `uuid4()` draws, `datetime.now()` readings), and we record every call
made on the transport as an `Event` in a trace.  Python exceptions
(`paramiko` connection errors, sftp transfer errors) are modelled with
`Except`: the source has no try/except around its loops, so an error aborts
the whole run, exactly as an uncaught exception would.

Indexing conventions of the oracle:
  * `connectOk i` — whether `ssh_client.connect` succeeds for the i-th target
    (0-based position in the declared target list);
  * `exitStatus j`, `fetchOk j`, `uuid j`, `now j` — outcome of the archive
    command, of `sftp.get`, the `uuid4()` draw and the `datetime.now()`
    reading of the j-th job (0-based global job counter; each iteration of the
    innermost loop in `main` consumes exactly one index).
-/

namespace Backup

/-- `Directory` pydantic model: `parent: str`, `child_targets: list[str]`. -/
structure Directory where
  parent : String
  child_targets : List String
  deriving DecidableEq

/-- `SSHBackupTarget` pydantic model: name, hostname, username, password,
`port: int = 22`, directories. -/
structure SSHBackupTarget where
  name : String
  hostname : String
  username : String
  password : String
  port : Nat
  directories : List Directory
  deriving DecidableEq

/-- A wall-clock reading, as consumed by `strftime('%Y-%m-%d_%H-%M-%S')`. -/
structure Timestamp where
  year : Nat
  month : Nat
  day : Nat
  hour : Nat
  minute : Nat
  second : Nat
  deriving DecidableEq

/-- Zero-pad to two digits, as Python strftime does for %m %d %H %M %S. -/
def pad2 (n : Nat) : String :=
  if n < 10 then "0" ++ toString n else toString n

/-- Zero-pad to four digits, as Python strftime does for %Y. -/
def pad4 (n : Nat) : String :=
  if n < 10 then "000" ++ toString n
  else if n < 100 then "00" ++ toString n
  else if n < 1000 then "0" ++ toString n
  else toString n

/-- `datetime.now().strftime('%Y-%m-%d_%H-%M-%S')`. -/
def strftimeFmt (t : Timestamp) : String :=
  pad4 t.year ++ "-" ++ pad2 t.month ++ "-" ++ pad2 t.day ++ "_" ++
    pad2 t.hour ++ "-" ++ pad2 t.minute ++ "-" ++ pad2 t.second

/-- One observable call on the transport layer.  `client` identifies the
`paramiko.SSHClient` instance; we use the 0-based position of the host in the
declared target list as its identity. -/
inductive Event where
  | connect (hostname : String) (port : Nat) (username : String) (password : String)
  | execCmd (client : Nat) (cmd : String)
  | recvExit (client : Nat) (status : Nat)
  | sftpGet (client : Nat) (remotePath : String) (localPath : String)
  | close (client : Nat)
  deriving DecidableEq

/-- Python exceptions that can escape the loops in `main`. -/
inductive RunError where
  | connectionError
  | transferError
  deriving DecidableEq

/-- Outcomes of the whole `main` call. -/
inductive MainError where
  | osError
  | configError
  | runError (e : RunError)
  deriving DecidableEq

instance exceptDecEq (ε α : Type) [DecidableEq ε] [DecidableEq α] :
    DecidableEq (Except ε α) := fun x y =>
  match x, y with
  | Except.ok a, Except.ok b =>
    if h : a = b then isTrue (by rw [h]) else isFalse (by simp [h])
  | Except.error a, Except.error b =>
    if h : a = b then isTrue (by rw [h]) else isFalse (by simp [h])
  | Except.ok _, Except.error _ => isFalse (by simp)
  | Except.error _, Except.ok _ => isFalse (by simp)

/-- The oracle fixing every external outcome of one run (see module header). -/
structure World where
  mkdirOk : Bool
  connectOk : Nat → Bool
  exitStatus : Nat → Nat
  fetchOk : Nat → Bool
  uuid : Nat → String
  now : Nat → Timestamp

/-- The f-string `f"tar -cJvf {target_tarball_path} -C {parent} {target}"`. -/
def tarCmd (tarballPath parent target : String) : String :=
  "tar -cJvf " ++ tarballPath ++ " -C " ++ parent ++ " " ++ target

/-- The f-string `f"rm {target_tarball_path}"`. -/
def rmCmd (tarballPath : String) : String :=
  "rm " ++ tarballPath

/-- The f-string `f"/tmp/{uuid4()}.tar.xz"` applied to one uuid draw. -/
def tmpPath (u : String) : String :=
  "/tmp/" ++ u ++ ".tar.xz"

/-- `connect(hostname, username, password, port)`: builds an `SSHClient` and
calls `ssh_client.connect(...)`, which raises on failure.  The returned value
is the client identity (the host index). -/
def connect (w : World) (hostIdx : Nat) (hostname username password : String)
    (port : Nat) : List Event × Except RunError Nat :=
  if w.connectOk hostIdx then
    ([Event.connect hostname port username password], Except.ok hostIdx)
  else
    ([Event.connect hostname port username password],
      Except.error RunError.connectionError)

/-- `create_tarball`: `exec_command(tar ...)` then
`stdout.channel.recv_exit_status()`.  The exit status is only logged — the
function neither raises nor returns it, so it has no effect on control flow. -/
def create_tarball (w : World) (client : Nat) (parent target tarballPath : String)
    (j : Nat) : List Event :=
  [Event.execCmd client (tarCmd tarballPath parent target),
   Event.recvExit client (w.exitStatus j)]

/-- `copy_tarball`: computes the artifact name from the host name, the child
target and `datetime.now()`, then calls `sftp.get(target_tarball_path,
full_dest_path)`, which raises on a transfer error.  The `parent` argument is
only used for logging. -/
def copy_tarball (w : World) (client : Nat)
    (parent target tarballPath destination hostName : String) (j : Nat) :
    List Event × Except RunError Unit :=
  let target_file_name :=
    hostName ++ "_" ++ target ++ "_" ++ strftimeFmt (w.now j) ++ ".tar.xz"
  let full_dest_path := destination ++ "/" ++ target_file_name
  if w.fetchOk j then
    ([Event.sftpGet client tarballPath full_dest_path], Except.ok ())
  else
    ([Event.sftpGet client tarballPath full_dest_path],
      Except.error RunError.transferError)

/-- `delete_tarball`: `exec_command(rm ...)` with no `recv_exit_status` call
and no error handling — the command is issued and never waited on. -/
def delete_tarball (client : Nat) (tarballPath : String) : List Event :=
  [Event.execCmd client (rmCmd tarballPath)]

/-- One raw `Directory` record as parsed from YAML: `none` models an absent
key, which pydantic rejects for a required field. -/
structure RawDirectory where
  parent : Option String
  child_targets : Option (List String)
  deriving DecidableEq

/-- One raw `ssh_target` record as parsed from YAML. -/
structure RawSSHTarget where
  name : Option String
  hostname : Option String
  username : Option String
  password : Option String
  port : Option Nat
  directories : Option (List RawDirectory)
  deriving DecidableEq

/-- Pydantic validation of one `Directory`: both fields required; the strings
inside `child_targets` are not inspected (an empty string is accepted). -/
def validateDirectory (r : RawDirectory) : Except MainError Directory :=
  match r.parent, r.child_targets with
  | some p, some cs => Except.ok ⟨p, cs⟩
  | _, _ => Except.error MainError.configError

/-- Validate a list of raw directory records, first failure wins. -/
def validateDirectories : List RawDirectory → Except MainError (List Directory)
  | [] => Except.ok []
  | r :: rest => do
    let d ← validateDirectory r
    let ds ← validateDirectories rest
    pure (d :: ds)

/-- Pydantic validation of one `SSHBackupTarget`: name, hostname, username,
password and directories are required; port defaults to 22. -/
def validateTarget (r : RawSSHTarget) : Except MainError SSHBackupTarget :=
  match r.name, r.hostname, r.username, r.password, r.directories with
  | some n, some h, some u, some pw, some ds => do
    let vds ← validateDirectories ds
    pure ⟨n, h, u, pw, r.port.getD 22, vds⟩
  | _, _, _, _, _ => Except.error MainError.configError

/-- `load_targets`: builds every `SSHBackupTarget` from the parsed YAML list;
the first pydantic `ValidationError` aborts the comprehension.  The YAML file
contents are the `raw` argument (file IO is outside the embedding). -/
def load_targets : List RawSSHTarget → Except MainError (List SSHBackupTarget)
  | [] => Except.ok []
  | r :: rest => do
    let t ← validateTarget r
    let ts ← load_targets rest
    pure (t :: ts)

/-- The body of the innermost loop in `main` for one `(directory, child)` pair:
draw a fresh temp path, `create_tarball`, `copy_tarball` (whose sftp error
would propagate), then `delete_tarball`.  `j` is the global job counter. -/
def runJob (w : World) (client : Nat)
    (hostName destination parent child : String) (j : Nat) :
    List Event × Except RunError Unit :=
  let target_tarball_path := tmpPath (w.uuid j)
  let ev1 := create_tarball w client parent child target_tarball_path j
  match copy_tarball w client parent child target_tarball_path destination hostName j with
  | (ev2, Except.ok _) =>
    (ev1 ++ ev2 ++ delete_tarball client target_tarball_path, Except.ok ())
  | (ev2, Except.error e) => (ev1 ++ ev2, Except.error e)

/-- `for child_target in directory.child_targets: ...` — an uncaught error in
one job aborts the remaining iterations. -/
def runChildren (w : World) (client : Nat) (hostName destination parent : String) :
    List String → Nat → List Event × Nat × Except RunError Unit
  | [], j => ([], j, Except.ok ())
  | c :: cs, j =>
    match runJob w client hostName destination parent c j with
    | (ev, Except.ok _) =>
      match runChildren w client hostName destination parent cs (j + 1) with
      | (ev2, j2, r) => (ev ++ ev2, j2, r)
    | (ev, Except.error e) => (ev, j + 1, Except.error e)

/-- `for directory in target.directories: ...`. -/
def runDirs (w : World) (client : Nat) (hostName destination : String) :
    List Directory → Nat → List Event × Nat × Except RunError Unit
  | [], j => ([], j, Except.ok ())
  | d :: ds, j =>
    match runChildren w client hostName destination d.parent d.child_targets j with
    | (ev, j2, Except.ok _) =>
      match runDirs w client hostName destination ds j2 with
      | (ev2, j3, r) => (ev ++ ev2, j3, r)
    | (ev, j2, Except.error e) => (ev, j2, Except.error e)

/-- One iteration of `for target in targets:` — connect (raises on failure),
run every directory, and reach `ssh_client.close()` only if no exception
escaped the inner loops. -/
def runHost (w : World) (hostIdx : Nat) (t : SSHBackupTarget)
    (destination : String) (j : Nat) :
    List Event × Nat × Except RunError Unit :=
  match connect w hostIdx t.hostname t.username t.password t.port with
  | (ev, Except.error e) => (ev, j, Except.error e)
  | (ev, Except.ok client) =>
    match runDirs w client t.name destination t.directories j with
    | (ev2, j2, Except.ok _) =>
      (ev ++ ev2 ++ [Event.close client], j2, Except.ok ())
    | (ev2, j2, Except.error e) => (ev ++ ev2, j2, Except.error e)

/-- The host loop of `main`: an uncaught error for one host aborts the whole
loop (there is no try/except in the source). -/
def runTargets (w : World) (destination : String) :
    List SSHBackupTarget → Nat → Nat → List Event × Except RunError Unit
  | [], _, _ => ([], Except.ok ())
  | t :: ts, hostIdx, j =>
    match runHost w hostIdx t destination j with
    | (ev, j2, Except.ok _) =>
      match runTargets w destination ts (hostIdx + 1) j2 with
      | (ev2, r) => (ev ++ ev2, r)
    | (ev, _, Except.error e) => (ev, Except.error e)

/-- `main(backups_destination_directory)`: ensure the destination directory
exists (re-raising the OSError on failure), `load_targets()`, then the host
loop. -/
def main (w : World) (destination : String) (raw : List RawSSHTarget) :
    List Event × Except MainError Unit :=
  if w.mkdirOk then
    match load_targets raw with
    | Except.error e => ([], Except.error e)
    | Except.ok targets =>
      match runTargets w destination targets 0 0 with
      | (ev, Except.ok _) => (ev, Except.ok ())
      | (ev, Except.error e) => (ev, Except.error (MainError.runError e))
  else ([], Except.error MainError.osError)

/-- Number of jobs declared by a list of directory specs. -/
def numJobsDirs (ds : List Directory) : Nat :=
  (ds.map fun d => d.child_targets.length).sum

/-- Number of jobs declared by a list of targets. -/
def numJobs (ts : List SSHBackupTarget) : Nat :=
  (ts.map fun t => numJobsDirs t.directories).sum

/-- One declared job together with the indices `main` assigns to it: `host` is
the position of its target in the declared list (= the client identity),
`idx` the global job counter value at which it runs. -/
structure JobRec where
  host : Nat
  hname : String
  idx : Nat
  parent : String
  child : String
  deriving DecidableEq

/-- The jobs of one `child_targets` list, with their job indices. -/
def jobsChildren (h : Nat) (hn parent : String) :
    List String → Nat → List JobRec
  | [], _ => []
  | c :: cs, j => ⟨h, hn, j, parent, c⟩ :: jobsChildren h hn parent cs (j + 1)

/-- The jobs of one directory list, with their job indices. -/
def jobsDirs (h : Nat) (hn : String) : List Directory → Nat → List JobRec
  | [], _ => []
  | d :: ds, j =>
    jobsChildren h hn d.parent d.child_targets j ++
      jobsDirs h hn ds (j + d.child_targets.length)

/-- Every job a declared target list gives rise to, in declaration order,
with the host index and global job index `main` assigns to each. -/
def jobsTargets : List SSHBackupTarget → Nat → Nat → List JobRec
  | [], _, _ => []
  | t :: ts, h, j =>
    jobsDirs h t.name t.directories j ++
      jobsTargets ts (h + 1) (j + numJobsDirs t.directories)

/-- The declared (host, parent, child) combinations of a target list, in
declaration order, hosts numbered from `h`. -/
def declCombos : List SSHBackupTarget → Nat → List (Nat × String × String)
  | [], _ => []
  | t :: ts, h =>
    (t.directories.map fun d =>
      d.child_targets.map fun c => (h, d.parent, c)).flatten ++ declCombos ts (h + 1)

/-- The local destination path `copy_tarball` computes:
`destination / f"{host_name}_{target}_{now:%Y-%m-%d_%H-%M-%S}.tar.xz"`. -/
def localDest (destination hostName target : String) (t : Timestamp) : String :=
  destination ++ "/" ++
    (hostName ++ "_" ++ target ++ "_" ++ strftimeFmt t ++ ".tar.xz")

/-- The four transport calls of one fully executed job. -/
def jobTrace (w : World) (client : Nat)
    (hostName destination parent child : String) (j : Nat) : List Event :=
  [Event.execCmd client (tarCmd (tmpPath (w.uuid j)) parent child),
   Event.recvExit client (w.exitStatus j),
   Event.sftpGet client (tmpPath (w.uuid j))
     (localDest destination hostName child (w.now j)),
   Event.execCmd client (rmCmd (tmpPath (w.uuid j)))]

/-- Expected trace of a failure-free child loop. -/
def goodChildren (w : World) (client : Nat)
    (hostName destination parent : String) : List String → Nat → List Event
  | [], _ => []
  | c :: cs, j =>
    jobTrace w client hostName destination parent c j ++
      goodChildren w client hostName destination parent cs (j + 1)

/-- Expected trace of a failure-free directory loop. -/
def goodDirs (w : World) (client : Nat) (hostName destination : String) :
    List Directory → Nat → List Event
  | [], _ => []
  | d :: ds, j =>
    goodChildren w client hostName destination d.parent d.child_targets j ++
      goodDirs w client hostName destination ds (j + d.child_targets.length)

/-- Expected trace of one failure-free host: connect, all jobs, close. -/
def goodHost (w : World) (hostIdx : Nat) (t : SSHBackupTarget)
    (destination : String) (j : Nat) : List Event :=
  Event.connect t.hostname t.port t.username t.password ::
    (goodDirs w hostIdx t.name destination t.directories j ++
      [Event.close hostIdx])

/-- Expected trace of a failure-free full run of the host loop. -/
def goodTargets (w : World) (destination : String) :
    List SSHBackupTarget → Nat → Nat → List Event
  | [], _, _ => []
  | t :: ts, hostIdx, j =>
    goodHost w hostIdx t destination j ++
      goodTargets w destination ts (hostIdx + 1) (j + numJobsDirs t.directories)

/-- Recognises archive-command executions in a trace.  The program issues
exactly two command shapes over `Exec`: `tar -cJvf ...` and `rm ...`; the
first character separates them. -/
def isTarExec : Event → Bool
  | Event.execCmd _ cmd =>
    match cmd.data with
    | 't' :: _ => true
    | _ => false
  | _ => false

/-- Recognises cleanup-command executions in a trace (see `isTarExec`). -/
def isRmExec : Event → Bool
  | Event.execCmd _ cmd =>
    match cmd.data with
    | 'r' :: _ => true
    | _ => false
  | _ => false

/-- Recognises any `exec_command` call. -/
def isExecEvent : Event → Bool
  | Event.execCmd _ _ => true
  | _ => false

/-- Recognises any `recv_exit_status` call. -/
def isRecvEvent : Event → Bool
  | Event.recvExit _ _ => true
  | _ => false

/-- The archive-exec event a declared job gives rise to. -/
def tarEventOf (w : World) (q : JobRec) : Event :=
  Event.execCmd q.host (tarCmd (tmpPath (w.uuid q.idx)) q.parent q.child)

/-- The local path of the first `sftp.get` call of a trace, if any. -/
def fetchDest : List Event → Option String
  | Event.sftpGet _ _ l :: _ => some l
  | _ => none

/-- A raw record violates a pydantic required-field constraint: a required
target field is absent, or some directory record misses `parent` or
`child_targets`. -/
def missingRequired (r : RawSSHTarget) : Bool :=
  r.name.isNone || r.hostname.isNone || r.username.isNone || r.password.isNone ||
    (match r.directories with
     | none => true
     | some ds => ds.any fun d => d.parent.isNone || d.child_targets.isNone)

/-- Fixture: one declared host with one directory and one child target. -/
def rawOne : List RawSSHTarget :=
  [⟨some "n0", some "h0", some "u", some "p", none,
    some [⟨some "par", some ["c"]⟩]⟩]

/-- Fixture: two declared hosts with one job each. -/
def rawTwo : List RawSSHTarget :=
  [⟨some "n0", some "h0", some "u", some "p", none,
    some [⟨some "par", some ["c"]⟩]⟩,
   ⟨some "n1", some "h1", some "u", some "p", none,
    some [⟨some "par", some ["c"]⟩]⟩]

/-- Fixture: one host whose only child path is the empty string. -/
def rawEmptyChild : List RawSSHTarget :=
  [⟨some "n0", some "h0", some "u", some "p", none,
    some [⟨some "par", some [""]⟩]⟩]

/-- Fixture: one host whose declaration misses the required hostname. -/
def rawMissing : List RawSSHTarget :=
  [⟨some "n0", none, some "u", some "p", none,
    some [⟨some "par", some ["c"]⟩]⟩]

/-- Fixture: the validated form of `rawOne`. -/
def tgtsOne : List SSHBackupTarget :=
  [⟨"n0", "h0", "u", "p", 22, [⟨"par", ["c"]⟩]⟩]

/-- Fixture: the validated form of `rawTwo`. -/
def tgtsTwo : List SSHBackupTarget :=
  [⟨"n0", "h0", "u", "p", 22, [⟨"par", ["c"]⟩]⟩,
   ⟨"n1", "h1", "u", "p", 22, [⟨"par", ["c"]⟩]⟩]

/-- Fixture timestamp 2024-01-02 03:04:05. -/
def tsOne : Timestamp := ⟨2024, 1, 2, 3, 4, 5⟩

/-- Fixture world: every external interaction succeeds. -/
def wOK : World :=
  ⟨true, fun _ => true, fun _ => 0, fun _ => true, fun n => toString n,
    fun _ => tsOne⟩

/-- Fixture world: every archive command exits with status 1 and the fetch of
the missing file fails. -/
def wArchiveFail : World :=
  ⟨true, fun _ => true, fun _ => 1, fun _ => false, fun n => toString n,
    fun _ => tsOne⟩

/-- Fixture world: every archive command exits with status 1, yet the sftp
fetch succeeds. -/
def wArchiveFailFetchOK : World :=
  ⟨true, fun _ => true, fun _ => 1, fun _ => true, fun n => toString n,
    fun _ => tsOne⟩

/-- Fixture world: archive commands succeed, every sftp fetch raises. -/
def wFetchFail : World :=
  ⟨true, fun _ => true, fun _ => 0, fun _ => false, fun n => toString n,
    fun _ => tsOne⟩

/-- Fixture world: connecting to host 0 fails, everything else succeeds. -/
def wConnFail0 : World :=
  ⟨true, fun i => decide (0 < i), fun _ => 0, fun _ => true,
    fun n => toString n, fun _ => tsOne⟩

theorem data_append (s t : String) : (s ++ t).data = s.data ++ t.data := rfl

theorem tmpPath_inj (a b : String) (h : tmpPath a = tmpPath b) : a = b := by
  have hd : ("/tmp/".data ++ a.data) ++ ".tar.xz".data
      = ("/tmp/".data ++ b.data) ++ ".tar.xz".data := congrArg String.data h
  rw [List.append_assoc, List.append_assoc] at hd
  have h2 := List.append_cancel_left hd
  have h3 := List.append_cancel_right h2
  cases a; cases b; simp only at h3; exact congrArg String.mk h3

theorem isTarExec_tar (c : Nat) (path parent target : String) :
    isTarExec (Event.execCmd c (tarCmd path parent target)) = true := rfl

theorem isTarExec_rm (c : Nat) (path : String) :
    isTarExec (Event.execCmd c (rmCmd path)) = false := rfl

theorem isTarExec_connect (hn : String) (p : Nat) (u pw : String) :
    isTarExec (Event.connect hn p u pw) = false := rfl

theorem isTarExec_recv (c s : Nat) : isTarExec (Event.recvExit c s) = false := rfl

theorem isTarExec_sftp (c : Nat) (r l : String) :
    isTarExec (Event.sftpGet c r l) = false := rfl

theorem isTarExec_close (c : Nat) : isTarExec (Event.close c) = false := rfl

theorem runChildren_ok (w : World) (client : Nat)
    (hostName destination parent : String) (cs : List String) (j : Nat)
    (h : ∀ k, k < cs.length → w.fetchOk (j + k) = true) :
    runChildren w client hostName destination parent cs j
      = (goodChildren w client hostName destination parent cs j,
          j + cs.length, Except.ok ()) := by
  induction cs generalizing j with
  | nil => simp [runChildren, goodChildren]
  | cons c cs ih =>
    have hf : w.fetchOk j = true := by simpa using h 0 (Nat.succ_pos _)
    have hrest : ∀ k, k < cs.length → w.fetchOk (j + 1 + k) = true := by
      intro k hk
      have hx : w.fetchOk (j + (k + 1)) = true := h (k + 1) (Nat.succ_lt_succ hk)
      simpa [Nat.add_assoc, Nat.add_comm, Nat.add_left_comm] using hx
    simp [runChildren, goodChildren, ih (j + 1) hrest, runJob, copy_tarball, hf,
      create_tarball, delete_tarball, jobTrace, localDest, Nat.add_assoc,
      Nat.add_comm 1 cs.length]

theorem runDirs_ok (w : World) (client : Nat) (hostName destination : String)
    (ds : List Directory) (j : Nat)
    (h : ∀ k, k < numJobsDirs ds → w.fetchOk (j + k) = true) :
    runDirs w client hostName destination ds j
      = (goodDirs w client hostName destination ds j,
          j + numJobsDirs ds, Except.ok ()) := by
  induction ds generalizing j with
  | nil => simp [runDirs, goodDirs, numJobsDirs]
  | cons d ds ih =>
    have hlen : numJobsDirs (d :: ds) = d.child_targets.length + numJobsDirs ds := by
      simp [numJobsDirs]
    have hhead : ∀ k, k < d.child_targets.length → w.fetchOk (j + k) = true := by
      intro k hk
      exact h k (by omega)
    have hrest : ∀ k, k < numJobsDirs ds
        → w.fetchOk (j + d.child_targets.length + k) = true := by
      intro k hk
      have hx := h (d.child_targets.length + k) (by omega)
      simpa [Nat.add_assoc] using hx
    simp [runDirs, goodDirs, runChildren_ok w client hostName destination d.parent
      d.child_targets j hhead, ih (j + d.child_targets.length) hrest, hlen,
      Nat.add_assoc]

theorem runHost_ok (w : World) (hostIdx : Nat) (t : SSHBackupTarget)
    (destination : String) (j : Nat)
    (hc : w.connectOk hostIdx = true)
    (h : ∀ k, k < numJobsDirs t.directories → w.fetchOk (j + k) = true) :
    runHost w hostIdx t destination j
      = (goodHost w hostIdx t destination j,
          j + numJobsDirs t.directories, Except.ok ()) := by
  simp [runHost, connect, hc, goodHost,
    runDirs_ok w hostIdx t.name destination t.directories j h]

theorem runTargets_ok (w : World) (destination : String)
    (ts : List SSHBackupTarget) (hostIdx j : Nat)
    (hc : ∀ i, i < ts.length → w.connectOk (hostIdx + i) = true)
    (h : ∀ k, k < numJobs ts → w.fetchOk (j + k) = true) :
    runTargets w destination ts hostIdx j
      = (goodTargets w destination ts hostIdx j, Except.ok ()) := by
  induction ts generalizing hostIdx j with
  | nil => simp [runTargets, goodTargets]
  | cons t ts ih =>
    have hlen : numJobs (t :: ts) = numJobsDirs t.directories + numJobs ts := by
      simp [numJobs]
    have hc0 : w.connectOk hostIdx = true := by simpa using hc 0 (Nat.succ_pos _)
    have hcrest : ∀ i, i < ts.length → w.connectOk (hostIdx + 1 + i) = true := by
      intro i hi
      have hx := hc (i + 1) (Nat.succ_lt_succ hi)
      simpa [Nat.add_assoc, Nat.add_comm, Nat.add_left_comm] using hx
    have hhead : ∀ k, k < numJobsDirs t.directories → w.fetchOk (j + k) = true := by
      intro k hk
      exact h k (by omega)
    have hrest : ∀ k, k < numJobs ts
        → w.fetchOk (j + numJobsDirs t.directories + k) = true := by
      intro k hk
      have hx := h (numJobsDirs t.directories + k) (by omega)
      simpa [Nat.add_assoc] using hx
    simp [runTargets, goodTargets,
      runHost_ok w hostIdx t destination j hc0 hhead,
      ih (hostIdx + 1) (j + numJobsDirs t.directories) hcrest hrest]

theorem filter_jobTrace (w : World) (client : Nat)
    (hn dest p c : String) (j : Nat) :
    (jobTrace w client hn dest p c j).filter isTarExec
      = [tarEventOf w ⟨client, hn, j, p, c⟩] := by
  simp [jobTrace, tarEventOf, List.filter, isTarExec_tar, isTarExec_rm,
    isTarExec_recv, isTarExec_sftp]

theorem filter_goodChildren (w : World) (client : Nat) (hn dest p : String)
    (cs : List String) (j : Nat) :
    (goodChildren w client hn dest p cs j).filter isTarExec
      = (jobsChildren client hn p cs j).map (tarEventOf w) := by
  induction cs generalizing j with
  | nil => simp [goodChildren, jobsChildren]
  | cons c cs ih =>
    simp [goodChildren, jobsChildren, List.filter_append, filter_jobTrace, ih]

theorem filter_goodDirs (w : World) (client : Nat) (hn dest : String)
    (ds : List Directory) (j : Nat) :
    (goodDirs w client hn dest ds j).filter isTarExec
      = (jobsDirs client hn ds j).map (tarEventOf w) := by
  induction ds generalizing j with
  | nil => simp [goodDirs, jobsDirs]
  | cons d ds ih =>
    simp [goodDirs, jobsDirs, List.filter_append, filter_goodChildren, ih]

theorem filter_goodTargets (w : World) (dest : String)
    (ts : List SSHBackupTarget) (hostIdx j : Nat) :
    (goodTargets w dest ts hostIdx j).filter isTarExec
      = (jobsTargets ts hostIdx j).map (tarEventOf w) := by
  induction ts generalizing hostIdx j with
  | nil => simp [goodTargets, jobsTargets]
  | cons t ts ih =>
    simp [goodTargets, jobsTargets, goodHost, List.filter_append, List.filter_cons,
      isTarExec_connect, isTarExec_close, filter_goodDirs, ih]

theorem jobsChildren_proj (h : Nat) (hn p : String) (cs : List String) (j : Nat) :
    (jobsChildren h hn p cs j).map (fun q => (q.host, q.parent, q.child))
      = cs.map fun c => (h, p, c) := by
  induction cs generalizing j with
  | nil => simp [jobsChildren]
  | cons c cs ih => simp [jobsChildren, ih]

theorem jobsDirs_proj (h : Nat) (hn : String) (ds : List Directory) (j : Nat) :
    (jobsDirs h hn ds j).map (fun q => (q.host, q.parent, q.child))
      = (ds.map fun d => d.child_targets.map fun c => (h, d.parent, c)).flatten := by
  induction ds generalizing j with
  | nil => simp [jobsDirs]
  | cons d ds ih => simp [jobsDirs, jobsChildren_proj, ih]

theorem jobsTargets_proj (ts : List SSHBackupTarget) (h j : Nat) :
    (jobsTargets ts h j).map (fun q => (q.host, q.parent, q.child))
      = declCombos ts h := by
  induction ts generalizing h j with
  | nil => simp [jobsTargets, declCombos]
  | cons t ts ih => simp [jobsTargets, declCombos, jobsDirs_proj, ih]

theorem jobsChildren_idx (h : Nat) (hn p : String) (cs : List String) (j : Nat) :
    (jobsChildren h hn p cs j).map JobRec.idx = List.range' j cs.length := by
  induction cs generalizing j with
  | nil => simp [jobsChildren]
  | cons c cs ih => simp [jobsChildren, ih, List.range'_succ]

theorem jobsDirs_idx (h : Nat) (hn : String) (ds : List Directory) (j : Nat) :
    (jobsDirs h hn ds j).map JobRec.idx = List.range' j (numJobsDirs ds) := by
  induction ds generalizing j with
  | nil => simp [jobsDirs, numJobsDirs]
  | cons d ds ih =>
    have hr := List.range'_append j d.child_targets.length (numJobsDirs ds) 1
    simp only [Nat.mul_one, Nat.one_mul] at hr
    simp [jobsDirs, jobsChildren_idx, ih, numJobsDirs, ← hr]
    omega

theorem jobsTargets_idx (ts : List SSHBackupTarget) (h j : Nat) :
    (jobsTargets ts h j).map JobRec.idx = List.range' j (numJobs ts) := by
  induction ts generalizing h j with
  | nil => simp [jobsTargets, numJobs]
  | cons t ts ih =>
    have hr := List.range'_append j (numJobsDirs t.directories) (numJobs ts) 1
    simp only [Nat.mul_one, Nat.one_mul] at hr
    simp [jobsTargets, jobsDirs_idx, ih, numJobs, ← hr]
    omega

theorem mem_goodChildren (w : World) (client : Nat) (hn dest p : String)
    (cs : List String) (j : Nat) (q : JobRec)
    (hq : q ∈ jobsChildren client hn p cs j) :
    ∃ pre post, goodChildren w client hn dest p cs j
      = pre ++ jobTrace w q.host q.hname dest q.parent q.child q.idx ++ post := by
  induction cs generalizing j with
  | nil => simp [jobsChildren] at hq
  | cons c cs ih =>
    simp only [jobsChildren, List.mem_cons] at hq
    rcases hq with rfl | hq
    · exact ⟨[], goodChildren w client hn dest p cs (j + 1), by simp [goodChildren]⟩
    · obtain ⟨pre, post, hh⟩ := ih (j + 1) hq
      exact ⟨jobTrace w client hn dest p c j ++ pre, post,
        by simp [goodChildren, hh]⟩

theorem mem_goodDirs (w : World) (client : Nat) (hn dest : String)
    (ds : List Directory) (j : Nat) (q : JobRec)
    (hq : q ∈ jobsDirs client hn ds j) :
    ∃ pre post, goodDirs w client hn dest ds j
      = pre ++ jobTrace w q.host q.hname dest q.parent q.child q.idx ++ post := by
  induction ds generalizing j with
  | nil => simp [jobsDirs] at hq
  | cons d ds ih =>
    simp only [jobsDirs, List.mem_append] at hq
    rcases hq with hq | hq
    · obtain ⟨pre, post, hh⟩ :=
        mem_goodChildren w client hn dest d.parent d.child_targets j q hq
      exact ⟨pre, post ++ goodDirs w client hn dest ds (j + d.child_targets.length),
        by simp [goodDirs, hh]⟩
    · obtain ⟨pre, post, hh⟩ := ih (j + d.child_targets.length) hq
      exact ⟨goodChildren w client hn dest d.parent d.child_targets j ++ pre, post,
        by simp [goodDirs, hh]⟩

theorem mem_goodTargets (w : World) (dest : String)
    (ts : List SSHBackupTarget) (hostIdx j : Nat) (q : JobRec)
    (hq : q ∈ jobsTargets ts hostIdx j) :
    ∃ pre post, goodTargets w dest ts hostIdx j
      = pre ++ jobTrace w q.host q.hname dest q.parent q.child q.idx ++ post := by
  induction ts generalizing hostIdx j with
  | nil => simp [jobsTargets] at hq
  | cons t ts ih =>
    simp only [jobsTargets, List.mem_append] at hq
    rcases hq with hq | hq
    · obtain ⟨pre, post, hh⟩ :=
        mem_goodDirs w hostIdx t.name dest t.directories j q hq
      refine ⟨Event.connect t.hostname t.port t.username t.password :: pre,
        post ++ ([Event.close hostIdx] ++
          goodTargets w dest ts (hostIdx + 1) (j + numJobsDirs t.directories)), ?_⟩
      simp [goodTargets, goodHost, hh]
    · obtain ⟨pre, post, hh⟩ := ih (hostIdx + 1) (j + numJobsDirs t.directories) hq
      exact ⟨goodHost w hostIdx t dest j ++ pre, post,
        by simp [goodTargets, hh]⟩

/-- Claim C1, evaluated at the failing input: with one declared job whose
archive command exits with status 1, `create_tarball` merely logs the failure
and `main` still invokes the transfer step — the trace shows the `sftp.get`
call on the remote temp path right after the nonzero exit status was
received.  Since that fetch of the missing file raises, the run aborts and
the cleanup step is not attempted either, contradicting the claimed policy
(skip transfer, still attempt cleanup). -/
theorem c1_transfer_invoked_after_failed_archive :
    main wArchiveFail "d" rawOne
      = ([Event.connect "h0" 22 "u" "p",
          Event.execCmd 0 (tarCmd "/tmp/0.tar.xz" "par" "c"),
          Event.recvExit 0 1,
          Event.sftpGet 0 "/tmp/0.tar.xz" "d/n0_c_2024-01-02_03-04-05.tar.xz"],
         Except.error (MainError.runError RunError.transferError)) := by
  decide

/-- Claim C2, amended: a connection failure when opening the Transport to a
host does not merely skip that host — the uncaught exception aborts the whole
host loop: the remaining trace is exactly that one connect attempt and no
subsequent host in declaration order is processed. -/
theorem c2_connection_failure_aborts_run (w : World) (destination : String)
    (t : SSHBackupTarget) (ts : List SSHBackupTarget) (hostIdx j : Nat)
    (h : w.connectOk hostIdx = false) :
    runTargets w destination (t :: ts) hostIdx j
      = ([Event.connect t.hostname t.port t.username t.password],
         Except.error RunError.connectionError) := by
  simp [runTargets, runHost, connect, h]

/-- Witness for the amended C2 at a concrete two-host run. -/
theorem c2_witness :
    wConnFail0.connectOk 0 = false ∧
    runTargets wConnFail0 "d" tgtsTwo 0 0
      = ([Event.connect "h0" 22 "u" "p"],
         Except.error RunError.connectionError) :=
  ⟨by decide, c2_connection_failure_aborts_run wConnFail0 "d"
    ⟨"n0", "h0", "u", "p", 22, [⟨"par", ["c"]⟩]⟩
    [⟨"n1", "h1", "u", "p", 22, [⟨"par", ["c"]⟩]⟩] 0 0 (by decide)⟩

/-- Claim C2, counterexample: two hosts are declared and connecting to the
first fails; the second declared host is never contacted — its connect call
is absent from the trace, refuting the stated isolation property. -/
theorem c2_counterexample :
    load_targets rawTwo = Except.ok tgtsTwo
    ∧ Event.connect "h1" 22 "u" "p" ∉ (main wConnFail0 "d" rawTwo).1 := by
  decide

/-- Claim C3, amended: for one job the transport call order is Archive (exec
then wait), then Transfer, then Cleanup last, and the cleanup command is
issued whenever the transfer call returns — whatever the archive exit status;
but when the transfer raises, cleanup is not attempted (the job trace stops
at the sftp call and the error aborts the run). -/
theorem c3_cleanup_order (w : World) (client : Nat)
    (hostName destination parent child : String) (j : Nat) :
    (w.fetchOk j = true →
      runJob w client hostName destination parent child j
        = ([Event.execCmd client (tarCmd (tmpPath (w.uuid j)) parent child),
            Event.recvExit client (w.exitStatus j),
            Event.sftpGet client (tmpPath (w.uuid j))
              (localDest destination hostName child (w.now j)),
            Event.execCmd client (rmCmd (tmpPath (w.uuid j)))], Except.ok ()))
    ∧ (w.fetchOk j = false →
      runJob w client hostName destination parent child j
        = ([Event.execCmd client (tarCmd (tmpPath (w.uuid j)) parent child),
            Event.recvExit client (w.exitStatus j),
            Event.sftpGet client (tmpPath (w.uuid j))
              (localDest destination hostName child (w.now j))],
           Except.error RunError.transferError)) := by
  constructor <;> intro h <;>
    simp [runJob, copy_tarball, create_tarball, delete_tarball, h, localDest]

/-- Witness for the amended C3: both branches at concrete jobs (the failing
branch taken from a world whose fetch raises). -/
theorem c3_witness :
    (wOK.fetchOk 0 = true ∧
      runJob wOK 0 "n0" "d" "par" "c" 0
        = ([Event.execCmd 0 (tarCmd (tmpPath (wOK.uuid 0)) "par" "c"),
            Event.recvExit 0 (wOK.exitStatus 0),
            Event.sftpGet 0 (tmpPath (wOK.uuid 0))
              (localDest "d" "n0" "c" (wOK.now 0)),
            Event.execCmd 0 (rmCmd (tmpPath (wOK.uuid 0)))], Except.ok ()))
    ∧ (wFetchFail.fetchOk 0 = false ∧
      runJob wFetchFail 0 "n0" "d" "par" "c" 0
        = ([Event.execCmd 0 (tarCmd (tmpPath (wFetchFail.uuid 0)) "par" "c"),
            Event.recvExit 0 (wFetchFail.exitStatus 0),
            Event.sftpGet 0 (tmpPath (wFetchFail.uuid 0))
              (localDest "d" "n0" "c" (wFetchFail.now 0))],
           Except.error RunError.transferError)) :=
  ⟨⟨by decide, (c3_cleanup_order wOK 0 "n0" "d" "par" "c" 0).1 (by decide)⟩,
   ⟨by decide, (c3_cleanup_order wFetchFail 0 "n0" "d" "par" "c" 0).2 (by decide)⟩⟩

/-- Claim C3, counterexample: the only job's archive step ran (its tar exec
is in the trace), yet no cleanup command was ever issued, because the sftp
fetch raised — refuting "cleanup is attempted for every job whose archive
step ran". -/
theorem c3_counterexample :
    Event.execCmd 0 (tarCmd "/tmp/0.tar.xz" "par" "c")
        ∈ (main wFetchFail "d" rawOne).1
    ∧ (main wFetchFail "d" rawOne).1.filter isRmExec = [] := by
  decide

/-- Claim C4, amended: provided every connection and every transfer of the
run succeed, one run attempts every declared (host, parent, child)
combination exactly once — the archive execs in the trace are exactly one
per declared job, in declaration order; a connection or transfer failure
instead aborts the run, leaving all later combinations unattempted (see the
counterexample). -/
theorem c4_every_combination_once (w : World) (destination : String)
    (ts : List SSHBackupTarget)
    (hc : ∀ i, i < ts.length → w.connectOk i = true)
    (hf : ∀ k, k < numJobs ts → w.fetchOk k = true) :
    (runTargets w destination ts 0 0).1.filter isTarExec
      = (jobsTargets ts 0 0).map (tarEventOf w)
    ∧ (jobsTargets ts 0 0).map (fun q => (q.host, q.parent, q.child))
      = declCombos ts 0 := by
  constructor
  · have h0 : ∀ i, i < ts.length → w.connectOk (0 + i) = true := by simpa using hc
    have h1 : ∀ k, k < numJobs ts → w.fetchOk (0 + k) = true := by simpa using hf
    rw [runTargets_ok w destination ts 0 0 h0 h1]
    exact filter_goodTargets w destination ts 0 0
  · exact jobsTargets_proj ts 0 0

/-- Witness for the amended C4 at a concrete failure-free two-host run. -/
theorem c4_witness :
    ((∀ i, i < tgtsTwo.length → wOK.connectOk i = true)
      ∧ (∀ k, k < numJobs tgtsTwo → wOK.fetchOk k = true))
    ∧ ((runTargets wOK "d" tgtsTwo 0 0).1.filter isTarExec
        = (jobsTargets tgtsTwo 0 0).map (tarEventOf wOK)
      ∧ (jobsTargets tgtsTwo 0 0).map (fun q => (q.host, q.parent, q.child))
        = declCombos tgtsTwo 0) :=
  ⟨⟨by decide, by decide⟩,
   c4_every_combination_once wOK "d" tgtsTwo (by decide) (by decide)⟩

/-- Claim C4, counterexample: one host declares one (parent, child)
combination, and the connection to it fails: the run performs no archive
attempt at all, so a declared combination was not attempted even once —
"regardless of failures" does not hold. -/
theorem c4_counterexample :
    load_targets rawOne = Except.ok tgtsOne
    ∧ declCombos tgtsOne 0 = [(0, "par", "c")]
    ∧ (main wConnFail0 "d" rawOne).1.filter isTarExec = [] := by
  decide

/-- Claim C5, amended: the Transport of a successfully opened host is closed
when the host's processing ends on the success path — including jobs whose
archive command exited nonzero, since that does not raise; but when a
transfer raises, the run aborts without ever calling close (see the
counterexample). -/
theorem c5_close_on_success_path (w : World) (hostIdx : Nat)
    (t : SSHBackupTarget) (destination : String) (j : Nat)
    (hc : w.connectOk hostIdx = true)
    (hf : ∀ k, k < numJobsDirs t.directories → w.fetchOk (j + k) = true) :
    (runHost w hostIdx t destination j).1
      = (Event.connect t.hostname t.port t.username t.password ::
          goodDirs w hostIdx t.name destination t.directories j) ++
          [Event.close hostIdx]
    ∧ (runHost w hostIdx t destination j).2.2 = Except.ok () := by
  rw [runHost_ok w hostIdx t destination j hc hf]
  exact ⟨by simp [goodHost], rfl⟩

/-- Witness for the amended C5: a host whose only job's archive command fails
(exit status 1) still reaches the close call, which ends its trace. -/
theorem c5_witness :
    (wArchiveFailFetchOK.connectOk 0 = true
      ∧ (∀ k, k < numJobsDirs [⟨"par", ["c"]⟩] →
          wArchiveFailFetchOK.fetchOk (0 + k) = true))
    ∧ ((runHost wArchiveFailFetchOK 0 ⟨"n0", "h0", "u", "p", 22, [⟨"par", ["c"]⟩]⟩
          "d" 0).1
        = (Event.connect "h0" 22 "u" "p" ::
            goodDirs wArchiveFailFetchOK 0 "n0" "d" [⟨"par", ["c"]⟩] 0) ++
            [Event.close 0]
      ∧ (runHost wArchiveFailFetchOK 0 ⟨"n0", "h0", "u", "p", 22, [⟨"par", ["c"]⟩]⟩
          "d" 0).2.2 = Except.ok ()) :=
  ⟨⟨by decide, by decide⟩,
   c5_close_on_success_path wArchiveFailFetchOK 0
     ⟨"n0", "h0", "u", "p", 22, [⟨"par", ["c"]⟩]⟩ "d" 0 (by decide) (by decide)⟩

/-- Claim C5, counterexample: the Transport to the host was successfully
opened (its connect call is in the trace), then the only job's transfer
raised — and the session is never closed: no close call appears in the
trace, refuting "closed on every job-level failure path". -/
theorem c5_counterexample :
    Event.connect "h0" 22 "u" "p" ∈ (main wFetchFail "d" rawOne).1
    ∧ Event.close 0 ∉ (main wFetchFail "d" rawOne).1 := by
  decide

/-- Claim C6: for every invocation of the transfer step the fetch destination
is the destination directory joined with the filename
`<host>_<child>_<YYYY-MM-DD_HH-MM-SS>.tar.xz`, the timestamp being the
zero-padded strftime fields of the capture time. -/
theorem c6_artifact_filename (w : World) (client : Nat)
    (parent target tarballPath destination hostName : String) (j : Nat) :
    (copy_tarball w client parent target tarballPath destination hostName j).1
      = [Event.sftpGet client tarballPath
          (destination ++ "/" ++
            (hostName ++ "_" ++ target ++ "_" ++
              (pad4 (w.now j).year ++ "-" ++ pad2 (w.now j).month ++ "-" ++
                pad2 (w.now j).day ++ "_" ++ pad2 (w.now j).hour ++ "-" ++
                pad2 (w.now j).minute ++ "-" ++ pad2 (w.now j).second) ++
              ".tar.xz"))] := by
  cases hf : w.fetchOk j <;> simp [copy_tarball, strftimeFmt, hf]

theorem validateDirectories_missing (ds : List RawDirectory)
    (h : ds.any (fun d => d.parent.isNone || d.child_targets.isNone) = true) :
    validateDirectories ds = Except.error MainError.configError := by
  induction ds with
  | nil => simp at h
  | cons d ds ih =>
    simp only [List.any_cons, Bool.or_eq_true] at h
    cases hp : d.parent with
    | none =>
      simp [validateDirectories, validateDirectory, hp, Bind.bind, Except.bind]
    | some p =>
      cases hc : d.child_targets with
      | none =>
        simp [validateDirectories, validateDirectory, hp, hc, Bind.bind,
          Except.bind]
      | some cs =>
        have hds : ds.any (fun d => d.parent.isNone || d.child_targets.isNone)
            = true := by
          rcases h with h | h
          · simp [hp, hc] at h
          · exact h
        simp [validateDirectories, validateDirectory, hp, hc, ih hds,
          Bind.bind, Except.bind]

theorem validateTarget_missing (r : RawSSHTarget)
    (h : missingRequired r = true) :
    validateTarget r = Except.error MainError.configError := by
  cases hn : r.name with
  | none => simp [validateTarget, hn]
  | some n =>
  cases hh : r.hostname with
  | none => simp [validateTarget, hn, hh]
  | some hst =>
  cases hu : r.username with
  | none => simp [validateTarget, hn, hh, hu]
  | some u =>
  cases hpw : r.password with
  | none => simp [validateTarget, hn, hh, hu, hpw]
  | some pw =>
  cases hd : r.directories with
  | none => simp [validateTarget, hn, hh, hu, hpw, hd]
  | some ds =>
    have hds : ds.any (fun d => d.parent.isNone || d.child_targets.isNone)
        = true := by
      simp [missingRequired, hn, hh, hu, hpw, hd] at h
      simpa using h
    simp [validateTarget, hn, hh, hu, hpw, hd,
      validateDirectories_missing ds hds, Bind.bind, Except.bind]

theorem validateDirectories_error_eq (ds : List RawDirectory) (e : MainError)
    (h : validateDirectories ds = Except.error e) : e = MainError.configError := by
  induction ds with
  | nil => simp [validateDirectories] at h
  | cons d ds ih =>
    cases hp : d.parent with
    | none =>
      simp [validateDirectories, validateDirectory, hp, Bind.bind,
        Except.bind] at h
      exact h.symm
    | some p =>
      cases hc : d.child_targets with
      | none =>
        simp [validateDirectories, validateDirectory, hp, hc, Bind.bind,
          Except.bind] at h
        exact h.symm
      | some cs =>
        cases hrec : validateDirectories ds with
        | ok vds =>
          simp [validateDirectories, validateDirectory, hp, hc, hrec,
            Bind.bind, Except.bind, Pure.pure, Except.pure] at h
        | error e2 =>
          simp [validateDirectories, validateDirectory, hp, hc, hrec,
            Bind.bind, Except.bind] at h
          rw [h] at hrec
          exact ih hrec

theorem validateTarget_error_eq (r : RawSSHTarget) (e : MainError)
    (h : validateTarget r = Except.error e) : e = MainError.configError := by
  cases hn : r.name with
  | none => simp [validateTarget, hn] at h; exact h.symm
  | some n =>
  cases hh : r.hostname with
  | none => simp [validateTarget, hn, hh] at h; exact h.symm
  | some hst =>
  cases hu : r.username with
  | none => simp [validateTarget, hn, hh, hu] at h; exact h.symm
  | some u =>
  cases hpw : r.password with
  | none => simp [validateTarget, hn, hh, hu, hpw] at h; exact h.symm
  | some pw =>
  cases hd : r.directories with
  | none => simp [validateTarget, hn, hh, hu, hpw, hd] at h; exact h.symm
  | some ds =>
    cases hrec : validateDirectories ds with
    | ok vds =>
      simp [validateTarget, hn, hh, hu, hpw, hd, hrec, Bind.bind,
        Except.bind, Pure.pure, Except.pure] at h
    | error e2 =>
      simp [validateTarget, hn, hh, hu, hpw, hd, hrec, Bind.bind,
        Except.bind] at h
      rw [h] at hrec
      exact validateDirectories_error_eq ds e hrec

theorem load_targets_missing (raw : List RawSSHTarget)
    (h : ∃ r ∈ raw, missingRequired r = true) :
    load_targets raw = Except.error MainError.configError := by
  induction raw with
  | nil => simp at h
  | cons r rest ih =>
    rcases h with ⟨r0, hr0, hmiss⟩
    simp only [List.mem_cons] at hr0
    rcases hr0 with rfl | hmem
    · simp [load_targets, validateTarget_missing r0 hmiss, Bind.bind,
        Except.bind]
    · have hrest := ih ⟨r0, hmem, hmiss⟩
      cases hv : validateTarget r with
      | ok t =>
        simp [load_targets, hv, hrest, Bind.bind, Except.bind]
      | error e2 =>
        have he2 := validateTarget_error_eq r e2 hv
        simp [load_targets, hv, he2, Bind.bind, Except.bind]

/-- Claim C7, amended: if any raw target declaration misses a required field
(or any of its directory records does), `load_targets` fails with the
validation error and `main` performs no transport call at all: the trace is
empty, so no Transport is opened and no remote command runs.  An empty child
path, by contrast, is accepted by validation (see the counterexample). -/
theorem c7_missing_field_fails_fast (w : World) (destination : String)
    (raw : List RawSSHTarget) (h : ∃ r ∈ raw, missingRequired r = true) :
    load_targets raw = Except.error MainError.configError
    ∧ (main w destination raw).1 = [] := by
  have hl := load_targets_missing raw h
  refine ⟨hl, ?_⟩
  by_cases hm : w.mkdirOk <;> simp [main, hm, hl]

/-- Witness for the amended C7: a declaration missing its hostname. -/
theorem c7_witness :
    (∃ r ∈ rawMissing, missingRequired r = true)
    ∧ (load_targets rawMissing = Except.error MainError.configError
      ∧ (main wOK "d" rawMissing).1 = []) :=
  ⟨by decide, c7_missing_field_fails_fast wOK "d" rawMissing (by decide)⟩

/-- Claim C7, counterexample: a declaration whose only child path is the
empty string passes validation unchanged, and the run proceeds to contact
the host — no validation error occurs, refuting the empty-child-path half of
the claim. -/
theorem c7_counterexample :
    load_targets rawEmptyChild
      = Except.ok [⟨"n0", "h0", "u", "p", 22, [⟨"par", [""]⟩]⟩]
    ∧ Event.connect "h0" 22 "u" "p" ∈ (main wOK "d" rawEmptyChild).1 := by
  decide

/-- Claim C8, amended: the archive command is waited on — its exit status is
received immediately after the exec and before the transfer's sftp call (the
job trace below shows exec, wait, sftp, in that order); the cleanup command,
however, is fire-and-forget: `delete_tarball` issues the `rm` exec as its
only transport call, with no wait on its completion. -/
theorem c8_archive_waited_cleanup_not (w : World) (client : Nat)
    (hostName destination parent child : String) (j : Nat)
    (hf : w.fetchOk j = true) :
    runJob w client hostName destination parent child j
      = ([Event.execCmd client (tarCmd (tmpPath (w.uuid j)) parent child),
          Event.recvExit client (w.exitStatus j),
          Event.sftpGet client (tmpPath (w.uuid j))
            (localDest destination hostName child (w.now j)),
          Event.execCmd client (rmCmd (tmpPath (w.uuid j)))], Except.ok ())
    ∧ delete_tarball client (tmpPath (w.uuid j))
        = [Event.execCmd client (rmCmd (tmpPath (w.uuid j)))] := by
  refine ⟨?_, rfl⟩
  simp [runJob, copy_tarball, create_tarball, delete_tarball, hf, localDest]

/-- Witness for the amended C8 at a concrete job. -/
theorem c8_witness :
    wOK.fetchOk 0 = true
    ∧ (runJob wOK 0 "n0" "d" "par" "c" 0
        = ([Event.execCmd 0 (tarCmd (tmpPath (wOK.uuid 0)) "par" "c"),
            Event.recvExit 0 (wOK.exitStatus 0),
            Event.sftpGet 0 (tmpPath (wOK.uuid 0))
              (localDest "d" "n0" "c" (wOK.now 0)),
            Event.execCmd 0 (rmCmd (tmpPath (wOK.uuid 0)))], Except.ok ())
      ∧ delete_tarball 0 (tmpPath (wOK.uuid 0))
          = [Event.execCmd 0 (rmCmd (tmpPath (wOK.uuid 0)))]) :=
  ⟨by decide, c8_archive_waited_cleanup_not wOK 0 "n0" "d" "par" "c" 0 (by decide)⟩

/-- Claim C8, counterexample: in a fully successful single-job run the
program issues two remote commands over the Transport (the tar command and
the rm command) but performs only one exit-status wait — so not every remote
command is waited on to completion. -/
theorem c8_counterexample :
    (main wOK "d" rawOne).1.countP isExecEvent = 2
    ∧ (main wOK "d" rawOne).1.countP isRecvEvent = 1 := by
  decide

/-- Claim C9: in a failure-free run whose uuid draws are collision-free, each
job uses a single fresh temp path `/tmp/<uuid>.tar.xz` (its job's uuid draw
wrapped by `tmpPath`): the identical path string appears in its archive
command, as its sftp fetch source and in its cleanup command — the four
consecutive transport calls of the job, shown explicitly — and no two jobs
of the run share a temp path. -/
theorem c9_fresh_temp_paths (w : World) (destination : String)
    (ts : List SSHBackupTarget)
    (hu : ∀ a, a < numJobs ts → ∀ b, b < numJobs ts → w.uuid a = w.uuid b → a = b)
    (hc : ∀ i, i < ts.length → w.connectOk i = true)
    (hf : ∀ k, k < numJobs ts → w.fetchOk k = true) :
    (∀ q ∈ jobsTargets ts 0 0, ∃ pre post,
      (runTargets w destination ts 0 0).1
        = pre ++
          [Event.execCmd q.host
             (tarCmd (tmpPath (w.uuid q.idx)) q.parent q.child),
           Event.recvExit q.host (w.exitStatus q.idx),
           Event.sftpGet q.host (tmpPath (w.uuid q.idx))
             (localDest destination q.hname q.child (w.now q.idx)),
           Event.execCmd q.host (rmCmd (tmpPath (w.uuid q.idx)))] ++ post)
    ∧ ((jobsTargets ts 0 0).map fun q => tmpPath (w.uuid q.idx)).Nodup := by
  have h0 : ∀ i, i < ts.length → w.connectOk (0 + i) = true := by simpa using hc
  have h1 : ∀ k, k < numJobs ts → w.fetchOk (0 + k) = true := by simpa using hf
  constructor
  · intro q hq
    rw [runTargets_ok w destination ts 0 0 h0 h1]
    obtain ⟨pre, post, hh⟩ := mem_goodTargets w destination ts 0 0 q hq
    exact ⟨pre, post, by simpa [jobTrace] using hh⟩
  · have hidx : (jobsTargets ts 0 0).map JobRec.idx
        = List.range' 0 (numJobs ts) := jobsTargets_idx ts 0 0
    have hmap : ((jobsTargets ts 0 0).map fun q => tmpPath (w.uuid q.idx))
        = ((jobsTargets ts 0 0).map JobRec.idx).map fun i => tmpPath (w.uuid i) := by
      rw [List.map_map]
      rfl
    rw [hmap, hidx]
    refine List.Nodup.map_on ?_ (List.nodup_range' 0 (numJobs ts))
    intro a ha b hb hab
    have ha2 : a < numJobs ts := by
      have hm := List.mem_range'_1.mp ha
      omega
    have hb2 : b < numJobs ts := by
      have hm := List.mem_range'_1.mp hb
      omega
    exact hu a ha2 b hb2 (tmpPath_inj _ _ hab)

/-- Witness for C9 at a concrete failure-free two-job run with distinct
uuid draws. -/
theorem c9_witness :
    ((∀ a, a < numJobs tgtsTwo → ∀ b, b < numJobs tgtsTwo →
        wOK.uuid a = wOK.uuid b → a = b)
      ∧ (∀ i, i < tgtsTwo.length → wOK.connectOk i = true)
      ∧ (∀ k, k < numJobs tgtsTwo → wOK.fetchOk k = true))
    ∧ ((∀ q ∈ jobsTargets tgtsTwo 0 0, ∃ pre post,
        (runTargets wOK "d" tgtsTwo 0 0).1
          = pre ++
            [Event.execCmd q.host
               (tarCmd (tmpPath (wOK.uuid q.idx)) q.parent q.child),
             Event.recvExit q.host (wOK.exitStatus q.idx),
             Event.sftpGet q.host (tmpPath (wOK.uuid q.idx))
               (localDest "d" q.hname q.child (wOK.now q.idx)),
             Event.execCmd q.host (rmCmd (tmpPath (wOK.uuid q.idx)))] ++ post)
      ∧ ((jobsTargets tgtsTwo 0 0).map fun q => tmpPath (wOK.uuid q.idx)).Nodup) :=
  ⟨⟨by decide, by decide, by decide⟩,
   c9_fresh_temp_paths wOK "d" tgtsTwo (by decide) (by decide) (by decide)⟩

/-- Claim C10: the local destination path computed by the transfer step
depends only on the host name, the child target name, the destination
directory and the wall-clock reading — two invocations that agree on those
but differ in parent path, remote temp path, client identity or any other
oracle state compute the identical destination. -/
theorem c10_dest_path_independent (w v : World) (client1 client2 : Nat)
    (parent1 parent2 target tarball1 tarball2 destination hostName : String)
    (j1 j2 : Nat) (h : w.now j1 = v.now j2) :
    fetchDest (copy_tarball w client1 parent1 target tarball1
        destination hostName j1).1
      = fetchDest (copy_tarball v client2 parent2 target tarball2
        destination hostName j2).1 := by
  cases hf : w.fetchOk j1 <;> cases hg : v.fetchOk j2 <;>
    simp [copy_tarball, fetchDest, hf, hg, h]

/-- Witness for C10: same host name, child, destination and timestamp, but
different worlds, parents, temp paths, clients and job indices. -/
theorem c10_witness :
    wOK.now 0 = wFetchFail.now 1
    ∧ fetchDest (copy_tarball wOK 0 "parentA" "c" "/tmp/a.tar.xz"
        "d" "n0" 0).1
      = fetchDest (copy_tarball wFetchFail 7 "parentB" "c" "/tmp/b.tar.xz"
        "d" "n0" 1).1 :=
  ⟨by decide, c10_dest_path_independent wOK wFetchFail 0 7 "parentA" "parentB"
    "c" "/tmp/a.tar.xz" "/tmp/b.tar.xz" "d" "n0" 0 1 (by decide)⟩

end Backup
